import Mathlib

/-!
Verification of a minimal HTTP/1.1 server (Rust, src/main.rs) against its
natural-language specification.  The embedding models Rust strings and byte
buffers as lists of natural numbers (their UTF-8 bytes); all string literals
appearing in the program are ASCII, so their byte encoding is the list of
code points.  The filesystem collaborator is modelled as a function from a
file name to an optional byte content (fs::read returning Ok or Err), and
the header HashMap as an association list with distinct keys together with
an insert-or-replace operation; the list order stands for the (otherwise
implementation-defined) enumeration order of the map.
-/

/-- A byte string: Rust String and Vec of u8 are both byte sequences. -/
abbrev Bytes := List Nat

/-- Byte encoding of an ASCII string literal (for ASCII text, UTF-8 bytes
coincide with the character code points). -/
def asciiBytes (s : String) : Bytes := s.data.map Char.toNat

/-- Decimal representation of a natural number, as written by to_string. -/
def natBytes (n : Nat) : Bytes := asciiBytes (Nat.repr n)

/-- Status string constant 200, from src/main.rs line 12. -/
def CODE_200_OK : Bytes := asciiBytes "200 OK"

/-- Status string constant 400, from src/main.rs line 13. -/
def CODE_400_BAD_REQUEST : Bytes := asciiBytes "400 Bad Request"

/-- Status string constant 404, from src/main.rs line 14. -/
def CODE_404_NOT_FOUND : Bytes := asciiBytes "404 Not Found"

/-- Status string constant 500, from src/main.rs line 15. -/
def CODE_500_INTERNAL_SERVER_ERROR : Bytes := asciiBytes "500 Internal Server Error"

/-- Header map, modelled as an association list; the invariant that keys are
distinct holds for every map the program builds.  The list order models the
enumeration order of the HashMap. -/
abbrev Headers := List (Bytes × Bytes)

/-- HashMap::insert: replace the value of an existing key in place, or add
the entry at the end. -/
def hinsert (k v : Bytes) : Headers → Headers
  | [] => [(k, v)]
  | (k0, v0) :: rest => if k0 = k then (k, v) :: rest else (k0, v0) :: hinsert k v rest

/-- HashMap::get with a byte-for-byte (case-sensitive) key comparison. -/
def hlookup (k : Bytes) : Headers → Option Bytes
  | [] => none
  | (k0, v0) :: rest => if k0 = k then some v0 else hlookup k rest

/-- The HttpMethod enum of src/main.rs: unrecognized methods are a parse
failure, not a third variant. -/
inductive HttpMethod where
  | get
  | post
deriving DecidableEq, Repr

/-- The HttpRequest struct of src/main.rs. -/
structure HttpRequest where
  method : HttpMethod
  path : Bytes
  version : Bytes
  headers : Headers
deriving DecidableEq, Repr

/-- The HttpResponse struct of src/main.rs. -/
structure HttpResponse where
  version : Bytes
  code : Bytes
  headers : Headers
  content : Bytes
deriving DecidableEq, Repr

/-- HttpResponse::default(): empty version, empty code string, empty
header map, empty content. -/
def HttpResponse.empty : HttpResponse := ⟨[], [], [], []⟩

/-- HttpResponse::in_response_to: copy the version of the request. -/
def HttpResponse.in_response_to (r : HttpResponse) (req : HttpRequest) : HttpResponse :=
  { r with version := req.version }

/-- HttpResponse::with_code. -/
def HttpResponse.with_code (r : HttpResponse) (code : Bytes) : HttpResponse :=
  { r with code := code }

/-- HttpResponse::with_content: set the body to the text bytes and insert
Content-Type text/plain and Content-Length (the byte length in decimal). -/
def HttpResponse.with_content (r : HttpResponse) (content : Bytes) : HttpResponse :=
  { r with
    content := content
    headers :=
      hinsert (asciiBytes "Content-Length") (natBytes content.length)
        (hinsert (asciiBytes "Content-Type") (asciiBytes "text/plain") r.headers) }

/-- HttpResponse::with_binary_content: set the body to the raw bytes and
insert Content-Type application/octet-stream and Content-Length. -/
def HttpResponse.with_binary_content (r : HttpResponse) (content : Bytes) : HttpResponse :=
  { r with
    content := content
    headers :=
      hinsert (asciiBytes "Content-Length") (natBytes content.length)
        (hinsert (asciiBytes "Content-Type") (asciiBytes "application/octet-stream") r.headers) }

/-- The Config struct: an optional base directory. -/
structure Config where
  directory : Option Bytes
deriving DecidableEq, Repr

/-- The filesystem collaborator: fs::read, returning the file bytes or an
error (none) with no distinction among error causes. -/
abbrev Fs := Bytes → Option Bytes

/-- Rust str::strip_prefix on byte strings: some remainder exactly when the
argument starts with the pattern. -/
def stripPre (pat s : Bytes) : Option Bytes :=
  if pat.isPrefixOf s then some (s.drop pat.length) else none

/-- handle_echo, src/main.rs lines 119-129. -/
def handle_echo (req : HttpRequest) : HttpResponse :=
  match stripPre (asciiBytes "/echo/") req.path with
  | some msg =>
      ((HttpResponse.empty.in_response_to req).with_code CODE_200_OK).with_content msg
  | none =>
      (HttpResponse.empty.in_response_to req).with_code CODE_400_BAD_REQUEST

/-- handle_files, src/main.rs lines 131-152, with the filesystem passed as
the collaborator fs. -/
def handle_files (fs : Fs) (req : HttpRequest) (config : Config) : HttpResponse :=
  let rsp := HttpResponse.empty.in_response_to req
  match config.directory with
  | none => rsp.with_code CODE_500_INTERNAL_SERVER_ERROR
  | some dir =>
    match stripPre (asciiBytes "/files/") req.path with
    | none => rsp.with_code CODE_400_BAD_REQUEST
    | some filename =>
      match fs (dir ++ asciiBytes "/" ++ filename) with
      | none => rsp.with_code CODE_404_NOT_FOUND
      | some file_content => (rsp.with_code CODE_200_OK).with_binary_content file_content

/-- handle_user_agent, src/main.rs lines 154-164: case-sensitive header
lookup of User-Agent. -/
def handle_user_agent (req : HttpRequest) : HttpResponse :=
  match hlookup (asciiBytes "User-Agent") req.headers with
  | some user_agent =>
      ((HttpResponse.empty.in_response_to req).with_code CODE_200_OK).with_content user_agent
  | none =>
      (HttpResponse.empty.in_response_to req).with_code CODE_400_BAD_REQUEST

/-- handle_get, src/main.rs lines 92-111: first-match-wins if chain. -/
def handle_get (fs : Fs) (req : HttpRequest) (config : Config) : HttpResponse :=
  let rsp := HttpResponse.empty.in_response_to req
  if req.path = asciiBytes "/" then rsp.with_code CODE_200_OK
  else if req.path = asciiBytes "/user-agent" then handle_user_agent req
  else if (asciiBytes "/echo/").isPrefixOf req.path then handle_echo req
  else if (asciiBytes "/files/").isPrefixOf req.path then handle_files fs req config
  else rsp.with_code CODE_404_NOT_FOUND

/-- handle_post, src/main.rs lines 113-117. -/
def handle_post (req : HttpRequest) : HttpResponse :=
  (HttpResponse.empty.in_response_to req).with_code CODE_404_NOT_FOUND

/-- handle, src/main.rs lines 85-90. -/
def handle (fs : Fs) (req : HttpRequest) (config : Config) : HttpResponse :=
  match req.method with
  | HttpMethod.get => handle_get fs req config
  | HttpMethod.post => handle_post req

/-- Rust str::strip_suffix for the two byte suffix carriage return, line
feed: some content exactly when the line ends in the bytes 13, 10. -/
def stripCrlf (l : Bytes) : Option Bytes :=
  match l.reverse with
  | 10 :: 13 :: rest => some rest.reverse
  | _ => none

/-- The line reading loop of read_http_request: cur holds the bytes of the
line read so far.  BufReader::read_line accumulates bytes up to and
including a line feed (byte 10); at end of input with no line feed the
pending line lacks the terminator, so the suffix strip fails, as in the
source.  A complete line is stripped of its carriage return, line feed
ending (failing when it does not end that way), an empty stripped line
stops reading and the rest of the stream is left unconsumed, and any other
line is collected. -/
def read_http_request_loop (cur : Bytes) : Bytes → Option (List Bytes × Bytes)
  | [] => none
  | b :: rest =>
    if b = 10 then
      match stripCrlf (cur ++ [10]) with
      | none => none
      | some content =>
        if content = [] then some ([], rest)
        else
          match read_http_request_loop [] rest with
          | none => none
          | some p => some (content :: p.1, p.2)
    else read_http_request_loop (cur ++ [b]) rest

/-- read_http_request, src/main.rs lines 166-186, extended with the part of
the stream it leaves unconsumed. -/
def read_http_request_rem (s : Bytes) : Option (List Bytes × Bytes) :=
  read_http_request_loop [] s

/-- read_http_request as in the source: just the list of header lines. -/
def read_http_request (s : Bytes) : Option (List Bytes) :=
  (read_http_request_rem s).map Prod.fst

/-- Rust str::split on a single space: every maximal run between space
bytes, including empty pieces; never returns an empty list. -/
def splitSpace : Bytes → List Bytes
  | [] => [[]]
  | b :: rest =>
    if b = 32 then [] :: splitSpace rest
    else
      match splitSpace rest with
      | [] => [[b]]
      | t :: ts => (b :: t) :: ts

/-- Rust str::split_once: split at the first occurrence of the separator,
dropping the separator, or none when the separator does not occur. -/
def splitOnce (sep : Bytes) : Bytes → Option (Bytes × Bytes)
  | [] => if sep.isPrefixOf ([] : Bytes) then some ([], ([] : Bytes).drop sep.length) else none
  | b :: rest =>
    if sep.isPrefixOf (b :: rest) then some ([], (b :: rest).drop sep.length)
    else
      match splitOnce sep rest with
      | none => none
      | some p => some (b :: p.1, p.2)

/-- The header collection step of read_request, src/main.rs lines 205-212:
keep the lines that split at the separator colon space, drop the rest, and
collect into the map with last-write-wins on duplicate keys. -/
def collectHeaders (lines : List Bytes) : Headers :=
  (lines.filterMap (splitOnce (asciiBytes ": "))).foldl
    (fun acc kv => hinsert kv.1 kv.2 acc) []

/-- The parsing step of read_request, src/main.rs lines 188-219, applied to
the lines read by read_http_request: take the first line, split it on
spaces, require the method token to be GET or POST, require a path and a
version token, and collect the remaining lines as headers. -/
def parse_request (lines : List Bytes) : Option HttpRequest :=
  match lines with
  | [] => none
  | start_line :: rest =>
    match splitSpace start_line with
    | [] => none
    | m :: toks =>
      match (if m = asciiBytes "GET" then some HttpMethod.get
             else if m = asciiBytes "POST" then some HttpMethod.post
             else none) with
      | none => none
      | some method =>
        match toks with
        | [] => none
        | path :: toks2 =>
          match toks2 with
          | [] => none
          | version :: _ =>
            some { method := method, path := path, version := version,
                   headers := collectHeaders rest }

/-- read_request, src/main.rs lines 188-219: read the header lines off the
stream, then parse them. -/
def read_request (s : Bytes) : Option HttpRequest :=
  (read_http_request s).bind parse_request

/-- write_response, src/main.rs lines 221-232, as the byte sequence written
to the stream: the version, a space, the code, a line break, each header as
name colon space value and a line break (joined in map enumeration order),
a blank line, then the raw content. -/
def write_response (r : HttpResponse) : Bytes :=
  (r.version ++ asciiBytes " " ++ r.code ++ asciiBytes "\r\n"
    ++ (r.headers.map (fun kv => kv.1 ++ asciiBytes ": " ++ kv.2 ++ asciiBytes "\r\n")).flatten
    ++ asciiBytes "\r\n")
  ++ r.content

/-- The per-connection behaviour of main, src/main.rs lines 239-252: parse
a request off the incoming bytes and write the handled response back; when
reading or parsing fails the thread panics before writing, so the
connection produces no output bytes at all. -/
def connectionOutput (fs : Fs) (config : Config) (s : Bytes) : Bytes :=
  match read_request s with
  | none => []
  | some req => write_response (handle fs req config)

/-- Route labels of the route table of section 4.3 of the spec: the four
real GET routes and the not-found fallback. -/
inductive RouteTag where
  | root
  | userAgent
  | echoRoute
  | filesRoute
  | fallback
deriving DecidableEq, Repr

/-- A path matcher of the route table: exact-string or starts-with, the two
shapes the spec allows. -/
inductive Matcher where
  | exactM (p : Bytes)
  | startM (p : Bytes)
deriving DecidableEq, Repr

/-- Whether a matcher accepts a path. -/
def Matcher.matches : Matcher → Bytes → Bool
  | Matcher.exactM q, p => p == q
  | Matcher.startM q, p => q.isPrefixOf p

/-- Modelled from the spec (section 4.3): the ordered GET route table,
exact slash, exact user-agent, then the echo and files path families. -/
def specGetTable : List (Matcher × RouteTag) :=
  [(Matcher.exactM (asciiBytes "/"), RouteTag.root),
   (Matcher.exactM (asciiBytes "/user-agent"), RouteTag.userAgent),
   (Matcher.startM (asciiBytes "/echo/"), RouteTag.echoRoute),
   (Matcher.startM (asciiBytes "/files/"), RouteTag.filesRoute)]

/-- Modelled from the spec (section 4.3): first-match-wins dispatch over an
ordered route table, with the not-found fallback when nothing matches. -/
def firstMatch : List (Matcher × RouteTag) → Bytes → RouteTag
  | [], _ => RouteTag.fallback
  | (m, t) :: rest, p => if m.matches p then t else firstMatch rest p

/-- Modelled from the spec (section 4.3): routing is a pure function of the
method and the path only; GET dispatches first-match-wins over the table,
POST always falls through to not-found. -/
def specRoute : HttpMethod → Bytes → RouteTag
  | HttpMethod.get, p => firstMatch specGetTable p
  | HttpMethod.post, _ => RouteTag.fallback

/-- Run the handler a route label stands for. -/
def runRoute (fs : Fs) (tag : RouteTag) (req : HttpRequest) (config : Config) : HttpResponse :=
  match tag with
  | RouteTag.root => (HttpResponse.empty.in_response_to req).with_code CODE_200_OK
  | RouteTag.userAgent => handle_user_agent req
  | RouteTag.echoRoute => handle_echo req
  | RouteTag.filesRoute => handle_files fs req config
  | RouteTag.fallback => (HttpResponse.empty.in_response_to req).with_code CODE_404_NOT_FOUND

/-- Modelled from the spec (section 4.5): the per-header wire block, each
entry rendered as name, colon, space, value, then carriage return and line
feed. -/
def specHeaderBlock : Headers → Bytes
  | [] => []
  | (k, v) :: rest => k ++ [58, 32] ++ v ++ [13, 10] ++ specHeaderBlock rest

/-- Modelled from the spec (section 4.5): the whole response wire format,
version, space, status string, line break, header block, blank line, then
the raw body with nothing appended after it. -/
def specWire (r : HttpResponse) : Bytes :=
  r.version ++ [32] ++ r.code ++ [13, 10] ++ specHeaderBlock r.headers ++ [13, 10] ++ r.content

/-- Modelled from the spec (section 4.2): the value the header map should
give a name, namely the value of the last header line contributing that
name, none when no line contributes it. -/
def specLastWins (k : Bytes) (lines : List Bytes) : Option Bytes :=
  (((lines.filterMap (splitOnce (asciiBytes ": "))).reverse.find?
      (fun kv => kv.1 == k)).map Prod.snd)

/-- A header entry whose serialized line re-parses to itself: no line feed
byte in the name or the value, and no colon-space inside the name. -/
def entryRoundTrips (kv : Bytes × Bytes) : Prop :=
  ¬ 10 ∈ kv.1 ∧ ¬ 10 ∈ kv.2 ∧ ¬ (asciiBytes ": ") <:+: kv.1

/-!
Helper lemmas: literal byte values, stripping, and header map reasoning.
-/

theorem aB_root_eq : asciiBytes "/" = [47] := rfl

theorem aB_ua_eq :
    asciiBytes "/user-agent" = [47, 117, 115, 101, 114, 45, 97, 103, 101, 110, 116] := rfl

theorem aB_echo_eq : asciiBytes "/echo/" = [47, 101, 99, 104, 111, 47] := rfl

theorem aB_files_eq : asciiBytes "/files/" = [47, 102, 105, 108, 101, 115, 47] := rfl

theorem aB_colsp_eq : asciiBytes ": " = [58, 32] := rfl

theorem aB_crlf_eq : asciiBytes "\r\n" = [13, 10] := rfl

theorem aB_sp_eq : asciiBytes " " = [32] := rfl

theorem stripPre_append (p s : Bytes) : stripPre p (p ++ s) = some s := by
  simp [stripPre, List.drop_left]

theorem hlookup_hinsert (k k0 v0 : Bytes) (hs : Headers) :
    hlookup k (hinsert k0 v0 hs) = if k0 = k then some v0 else hlookup k hs := by
  induction hs with
  | nil => simp [hinsert, hlookup]
  | cons kv rest ih =>
    obtain ⟨k1, v1⟩ := kv
    by_cases h1 : k1 = k0
    · subst h1
      by_cases h2 : k1 = k <;> simp [hinsert, hlookup, h2]
    · by_cases h2 : k1 = k
      · subst h2
        simp [hinsert, hlookup, h1, Ne.symm h1]
      · simp [hinsert, hlookup, h1, h2, ih]

theorem hlookup_foldl_hinsert (k : Bytes) (ps : List (Bytes × Bytes)) (acc : Headers) :
    hlookup k (ps.foldl (fun a kv => hinsert kv.1 kv.2 a) acc) =
      ((ps.reverse.find? (fun kv => kv.1 == k)).map Prod.snd).or (hlookup k acc) := by
  induction ps generalizing acc with
  | nil => simp
  | cons p ps ih =>
    simp only [List.foldl_cons, ih, List.reverse_cons, List.find?_append]
    cases hf : ps.reverse.find? (fun kv => kv.1 == k) with
    | some q => simp [Option.or]
    | none =>
      simp only [Option.map_none, Option.none_or, Option.or_none]
      rw [hlookup_hinsert]
      by_cases hk : p.1 = k
      · have hb : (p.1 == k) = true := by simp [hk]
        simp [List.find?, hb, hk]
      · have hb : (p.1 == k) = false := by simp [hk]
        simp [List.find?, hb, hk]

theorem hlookup_collectHeaders (k : Bytes) (lines : List Bytes) :
    hlookup k (collectHeaders lines) = specLastWins k lines := by
  rw [collectHeaders, specLastWins, hlookup_foldl_hinsert]
  simp [hlookup]

/-!
Helper lemmas: what each handler computes, and which handler the GET
dispatch chain selects for each path shape.
-/

theorem handle_echo_ok (req : HttpRequest) (suffix : Bytes)
    (hp : req.path = asciiBytes "/echo/" ++ suffix) :
    handle_echo req =
      { version := req.version, code := CODE_200_OK,
        headers := [(asciiBytes "Content-Type", asciiBytes "text/plain"),
                    (asciiBytes "Content-Length", natBytes suffix.length)],
        content := suffix } := by
  have hne : asciiBytes "Content-Type" ≠ asciiBytes "Content-Length" := by decide
  simp [handle_echo, hp, stripPre_append, HttpResponse.empty, HttpResponse.in_response_to,
    HttpResponse.with_code, HttpResponse.with_content, hinsert, hne]

theorem handle_user_agent_some (req : HttpRequest) (ua : Bytes)
    (h : hlookup (asciiBytes "User-Agent") req.headers = some ua) :
    handle_user_agent req =
      { version := req.version, code := CODE_200_OK,
        headers := [(asciiBytes "Content-Type", asciiBytes "text/plain"),
                    (asciiBytes "Content-Length", natBytes ua.length)],
        content := ua } := by
  have hne : asciiBytes "Content-Type" ≠ asciiBytes "Content-Length" := by decide
  simp [handle_user_agent, h, HttpResponse.empty, HttpResponse.in_response_to,
    HttpResponse.with_code, HttpResponse.with_content, hinsert, hne]

theorem handle_user_agent_none (req : HttpRequest)
    (h : hlookup (asciiBytes "User-Agent") req.headers = none) :
    handle_user_agent req =
      { version := req.version, code := CODE_400_BAD_REQUEST, headers := [], content := [] } := by
  simp [handle_user_agent, h, HttpResponse.empty, HttpResponse.in_response_to,
    HttpResponse.with_code]

theorem handle_files_nodir (fs : Fs) (req : HttpRequest)
    (config : Config) (hd : config.directory = none) :
    handle_files fs req config =
      { version := req.version, code := CODE_500_INTERNAL_SERVER_ERROR,
        headers := [], content := [] } := by
  simp [handle_files, hd, HttpResponse.empty, HttpResponse.in_response_to,
    HttpResponse.with_code]

theorem handle_files_err (fs : Fs) (req : HttpRequest) (config : Config)
    (dir name : Bytes) (hd : config.directory = some dir)
    (hp : req.path = asciiBytes "/files/" ++ name)
    (hf : fs (dir ++ asciiBytes "/" ++ name) = none) :
    handle_files fs req config =
      { version := req.version, code := CODE_404_NOT_FOUND, headers := [], content := [] } := by
  rw [List.append_assoc] at hf
  simp [handle_files, hd, hp, stripPre_append, hf, HttpResponse.empty,
    HttpResponse.in_response_to, HttpResponse.with_code]

theorem handle_files_ok (fs : Fs) (req : HttpRequest) (config : Config)
    (dir name c : Bytes) (hd : config.directory = some dir)
    (hp : req.path = asciiBytes "/files/" ++ name)
    (hf : fs (dir ++ asciiBytes "/" ++ name) = some c) :
    handle_files fs req config =
      { version := req.version, code := CODE_200_OK,
        headers := [(asciiBytes "Content-Type", asciiBytes "application/octet-stream"),
                    (asciiBytes "Content-Length", natBytes c.length)],
        content := c } := by
  have hne : asciiBytes "Content-Type" ≠ asciiBytes "Content-Length" := by decide
  rw [List.append_assoc] at hf
  simp [handle_files, hd, hp, stripPre_append, hf, HttpResponse.empty,
    HttpResponse.in_response_to, HttpResponse.with_code, HttpResponse.with_binary_content,
    hinsert, hne]

theorem handle_post_eq (req : HttpRequest) :
    handle_post req =
      { version := req.version, code := CODE_404_NOT_FOUND, headers := [], content := [] } := rfl

theorem dispatch_root (fs : Fs) (config : Config) (req : HttpRequest)
    (hm : req.method = HttpMethod.get) (hp : req.path = asciiBytes "/") :
    handle fs req config =
      { version := req.version, code := CODE_200_OK, headers := [], content := [] } := by
  obtain ⟨m, p, v, hs⟩ := req
  simp only at hm hp
  subst hm
  simp [handle, handle_get, hp, HttpResponse.empty, HttpResponse.in_response_to,
    HttpResponse.with_code]

theorem dispatch_ua (fs : Fs) (config : Config) (req : HttpRequest)
    (hm : req.method = HttpMethod.get) (hp : req.path = asciiBytes "/user-agent") :
    handle fs req config = handle_user_agent req := by
  obtain ⟨m, p, v, hs⟩ := req
  simp only at hm hp
  subst hm
  simp [handle, handle_get, hp, (by decide : asciiBytes "/user-agent" ≠ asciiBytes "/")]

theorem dispatch_echo (fs : Fs) (config : Config) (req : HttpRequest) (suffix : Bytes)
    (hm : req.method = HttpMethod.get) (hp : req.path = asciiBytes "/echo/" ++ suffix) :
    handle fs req config = handle_echo req := by
  have h1 : req.path ≠ asciiBytes "/" := by
    rw [hp, aB_echo_eq, aB_root_eq]; simp
  have h2 : req.path ≠ asciiBytes "/user-agent" := by
    rw [hp, aB_echo_eq, aB_ua_eq]; simp
  have h3 : (asciiBytes "/echo/").isPrefixOf req.path = true := by
    rw [hp]; simp
  obtain ⟨m, p, v, hs⟩ := req
  simp only at hm
  subst hm
  simp [handle, handle_get, h1, h2, h3]

theorem dispatch_files (fs : Fs) (config : Config) (req : HttpRequest) (name : Bytes)
    (hm : req.method = HttpMethod.get) (hp : req.path = asciiBytes "/files/" ++ name) :
    handle fs req config = handle_files fs req config := by
  have h1 : req.path ≠ asciiBytes "/" := by
    rw [hp, aB_files_eq, aB_root_eq]; simp
  have h2 : req.path ≠ asciiBytes "/user-agent" := by
    rw [hp, aB_files_eq, aB_ua_eq]; simp
  have h3 : (asciiBytes "/echo/").isPrefixOf req.path = false := by
    rw [hp, aB_echo_eq, aB_files_eq]
    rfl
  have h4 : (asciiBytes "/files/").isPrefixOf req.path = true := by
    rw [hp]; simp
  obtain ⟨m, p, v, hs⟩ := req
  simp only at hm
  subst hm
  simp [handle, handle_get, h1, h2, h3, h4]

theorem dispatch_fallback (fs : Fs) (config : Config) (req : HttpRequest)
    (hm : req.method = HttpMethod.get)
    (h1 : req.path ≠ asciiBytes "/") (h2 : req.path ≠ asciiBytes "/user-agent")
    (h3 : ¬ (asciiBytes "/echo/").isPrefixOf req.path)
    (h4 : ¬ (asciiBytes "/files/").isPrefixOf req.path) :
    handle fs req config =
      { version := req.version, code := CODE_404_NOT_FOUND, headers := [], content := [] } := by
  obtain ⟨m, p, v, hs⟩ := req
  simp only at hm h1 h2 h3 h4
  subst hm
  simp [handle, handle_get, h1, h2, h3, h4, HttpResponse.empty, HttpResponse.in_response_to,
    HttpResponse.with_code]

theorem dispatch_post (fs : Fs) (config : Config) (req : HttpRequest)
    (hm : req.method = HttpMethod.post) :
    handle fs req config =
      { version := req.version, code := CODE_404_NOT_FOUND, headers := [], content := [] } := by
  obtain ⟨m, p, v, hs⟩ := req
  simp only at hm
  subst hm
  simp [handle, handle_post_eq]

/-!
The claims.
-/

/-- C1: every GET request whose path starts with the echo route marker gets
status 200 OK, a body equal byte-for-byte to the remainder of the path after
the marker (verbatim, slashes included, possibly empty), a Content-Type
header text/plain, and a Content-Length header holding the decimal byte
length of that remainder. -/
theorem claim_C1 (fs : Fs) (config : Config) (v suffix : Bytes) (hs : Headers) :
    handle fs ⟨HttpMethod.get, asciiBytes "/echo/" ++ suffix, v, hs⟩ config =
      { version := v, code := CODE_200_OK,
        headers := [(asciiBytes "Content-Type", asciiBytes "text/plain"),
                    (asciiBytes "Content-Length", natBytes suffix.length)],
        content := suffix } := by
  rw [dispatch_echo fs config _ suffix rfl rfl, handle_echo_ok _ suffix rfl]

/-- C2: on a GET request for a files route path, a missing base directory
gives 500 whatever the file state; with a base directory, a failing read of
base, slash, name gives 404 with nothing else reported, and a successful
read gives 200 with Content-Type application/octet-stream, Content-Length
the decimal byte count of the file, and the exact file bytes as body. -/
theorem claim_C2 :
    (∀ (fs : Fs) (v name : Bytes) (hs : Headers),
        handle fs ⟨HttpMethod.get, asciiBytes "/files/" ++ name, v, hs⟩ ⟨none⟩ =
          { version := v, code := CODE_500_INTERNAL_SERVER_ERROR,
            headers := [], content := [] })
    ∧ (∀ (fs : Fs) (dir v name : Bytes) (hs : Headers),
        fs (dir ++ asciiBytes "/" ++ name) = none →
        handle fs ⟨HttpMethod.get, asciiBytes "/files/" ++ name, v, hs⟩ ⟨some dir⟩ =
          { version := v, code := CODE_404_NOT_FOUND, headers := [], content := [] })
    ∧ (∀ (fs : Fs) (dir v name c : Bytes) (hs : Headers),
        fs (dir ++ asciiBytes "/" ++ name) = some c →
        handle fs ⟨HttpMethod.get, asciiBytes "/files/" ++ name, v, hs⟩ ⟨some dir⟩ =
          { version := v, code := CODE_200_OK,
            headers := [(asciiBytes "Content-Type", asciiBytes "application/octet-stream"),
                        (asciiBytes "Content-Length", natBytes c.length)],
            content := c }) := by
  refine ⟨fun fs v name hs => ?_, fun fs dir v name hs hf => ?_, fun fs dir v name c hs hf => ?_⟩
  · rw [dispatch_files fs _ _ name rfl rfl, handle_files_nodir _ _ _ rfl]
  · rw [dispatch_files fs _ _ name rfl rfl, handle_files_err fs _ _ dir name rfl rfl hf]
  · rw [dispatch_files fs _ _ name rfl rfl, handle_files_ok fs _ _ dir name c rfl rfl hf]

/-- Witness for C2 at concrete inputs: a one-file filesystem, read failure
on a missing name and success on the present one. -/
theorem claim_C2_witness :
    handle (fun _ => none)
        ⟨HttpMethod.get, asciiBytes "/files/" ++ asciiBytes "a.txt",
         asciiBytes "HTTP/1.1", []⟩ ⟨some (asciiBytes "/tmp")⟩ =
      { version := asciiBytes "HTTP/1.1", code := CODE_404_NOT_FOUND,
        headers := [], content := [] } ∧
    handle (fun n => if n = asciiBytes "/tmp/a.txt" then some [7, 8] else none)
        ⟨HttpMethod.get, asciiBytes "/files/" ++ asciiBytes "a.txt",
         asciiBytes "HTTP/1.1", []⟩ ⟨some (asciiBytes "/tmp")⟩ =
      { version := asciiBytes "HTTP/1.1", code := CODE_200_OK,
        headers := [(asciiBytes "Content-Type", asciiBytes "application/octet-stream"),
                    (asciiBytes "Content-Length", natBytes 2)],
        content := [7, 8] } :=
  ⟨claim_C2.2.1 (fun _ => none) (asciiBytes "/tmp") (asciiBytes "HTTP/1.1")
      (asciiBytes "a.txt") [] rfl,
   claim_C2.2.2 (fun n => if n = asciiBytes "/tmp/a.txt" then some [7, 8] else none)
      (asciiBytes "/tmp") (asciiBytes "HTTP/1.1") (asciiBytes "a.txt") [7, 8] [] (by decide)⟩

/-- C3: a GET request for exactly the user-agent path answers 200 with
text/plain content headers and the User-Agent header value as body when the
header map holds the key User-Agent under exact case-sensitive match, and
400 with an empty body when it does not. -/
theorem claim_C3 :
    (∀ (fs : Fs) (config : Config) (v ua : Bytes) (hs : Headers),
        hlookup (asciiBytes "User-Agent") hs = some ua →
        handle fs ⟨HttpMethod.get, asciiBytes "/user-agent", v, hs⟩ config =
          { version := v, code := CODE_200_OK,
            headers := [(asciiBytes "Content-Type", asciiBytes "text/plain"),
                        (asciiBytes "Content-Length", natBytes ua.length)],
            content := ua })
    ∧ (∀ (fs : Fs) (config : Config) (v : Bytes) (hs : Headers),
        hlookup (asciiBytes "User-Agent") hs = none →
        handle fs ⟨HttpMethod.get, asciiBytes "/user-agent", v, hs⟩ config =
          { version := v, code := CODE_400_BAD_REQUEST, headers := [], content := [] }) := by
  constructor
  · intro fs config v ua hs hua
    rw [dispatch_ua fs config _ rfl rfl, handle_user_agent_some _ ua hua]
  · intro fs config v hs hua
    rw [dispatch_ua fs config _ rfl rfl, handle_user_agent_none _ hua]

/-- Witness for C3 at concrete inputs: a present and an absent User-Agent
header. -/
theorem claim_C3_witness :
    handle (fun _ => none)
        ⟨HttpMethod.get, asciiBytes "/user-agent", asciiBytes "HTTP/1.1",
         [(asciiBytes "User-Agent", asciiBytes "foo")]⟩ ⟨none⟩ =
      { version := asciiBytes "HTTP/1.1", code := CODE_200_OK,
        headers := [(asciiBytes "Content-Type", asciiBytes "text/plain"),
                    (asciiBytes "Content-Length", natBytes 3)],
        content := asciiBytes "foo" } ∧
    handle (fun _ => none)
        ⟨HttpMethod.get, asciiBytes "/user-agent", asciiBytes "HTTP/1.1", []⟩ ⟨none⟩ =
      { version := asciiBytes "HTTP/1.1", code := CODE_400_BAD_REQUEST,
        headers := [], content := [] } :=
  ⟨claim_C3.1 (fun _ => none) ⟨none⟩ (asciiBytes "HTTP/1.1") (asciiBytes "foo")
      [(asciiBytes "User-Agent", asciiBytes "foo")] (by decide),
   claim_C3.2 (fun _ => none) ⟨none⟩ (asciiBytes "HTTP/1.1") [] (by decide)⟩

/-- C4: handler dispatch is a pure function of method and path: it refines
first-match-wins dispatch over the ordered GET route table (exact slash,
exact user-agent, echo path family, files path family, then the not-found
fallback), a GET for the bare slash gives 200 with an empty body, every
POST gives 404, and a GET whose path matches no table entry gives 404 with
an empty body; the selected route never depends on the headers. -/
theorem claim_C4 :
    (∀ (fs : Fs) (req : HttpRequest) (config : Config),
        handle fs req config = runRoute fs (specRoute req.method req.path) req config)
    ∧ (∀ (fs : Fs) (v : Bytes) (hs : Headers) (config : Config),
        handle fs ⟨HttpMethod.get, asciiBytes "/", v, hs⟩ config =
          { version := v, code := CODE_200_OK, headers := [], content := [] })
    ∧ (∀ (fs : Fs) (p v : Bytes) (hs : Headers) (config : Config),
        handle fs ⟨HttpMethod.post, p, v, hs⟩ config =
          { version := v, code := CODE_404_NOT_FOUND, headers := [], content := [] })
    ∧ (∀ (fs : Fs) (req : HttpRequest) (config : Config),
        req.method = HttpMethod.get →
        specRoute HttpMethod.get req.path = RouteTag.fallback →
        handle fs req config =
          { version := req.version, code := CODE_404_NOT_FOUND,
            headers := [], content := [] }) := by
  have main : ∀ (fs : Fs) (req : HttpRequest) (config : Config),
      handle fs req config = runRoute fs (specRoute req.method req.path) req config := by
    intro fs req config
    obtain ⟨m, p, v, hs⟩ := req
    cases m with
    | post => rfl
    | get =>
      by_cases h1 : p = asciiBytes "/"
      · subst h1
        simp +decide [handle, handle_get, specRoute, specGetTable, firstMatch,
          Matcher.matches, runRoute]
      · by_cases h2 : p = asciiBytes "/user-agent"
        · subst h2
          simp +decide [handle, handle_get, specRoute, specGetTable, firstMatch,
            Matcher.matches, runRoute]
        · by_cases h3 : (asciiBytes "/echo/").isPrefixOf p
          · simp [handle, handle_get, specRoute, specGetTable, firstMatch, Matcher.matches,
              runRoute, beq_iff_eq, h1, h2, h3]
          · by_cases h4 : (asciiBytes "/files/").isPrefixOf p
            · simp [handle, handle_get, specRoute, specGetTable, firstMatch, Matcher.matches,
                runRoute, beq_iff_eq, h1, h2, h3, h4]
            · simp [handle, handle_get, specRoute, specGetTable, firstMatch, Matcher.matches,
                runRoute, beq_iff_eq, h1, h2, h3, h4]
  refine ⟨main, fun fs v hs config => dispatch_root fs config _ rfl rfl,
          fun fs p v hs config => dispatch_post fs config _ rfl, ?_⟩
  intro fs req config hm hroute
  obtain ⟨m, p, v, hs⟩ := req
  simp only at hm hroute ⊢
  subst hm
  rw [main fs ⟨HttpMethod.get, p, v, hs⟩ config]
  simp only at hroute ⊢
  rw [hroute]
  rfl

/-- Witness for C4 at a concrete unmatched GET path. -/
theorem claim_C4_witness :
    HttpMethod.get = HttpMethod.get ∧
    specRoute HttpMethod.get (asciiBytes "/nope") = RouteTag.fallback ∧
    handle (fun _ => none)
        ⟨HttpMethod.get, asciiBytes "/nope", asciiBytes "HTTP/1.1", []⟩ ⟨none⟩ =
      { version := asciiBytes "HTTP/1.1", code := CODE_404_NOT_FOUND,
        headers := [], content := [] } :=
  ⟨rfl, by decide,
   claim_C4.2.2.2 (fun _ => none)
     ⟨HttpMethod.get, asciiBytes "/nope", asciiBytes "HTTP/1.1", []⟩ ⟨none⟩ rfl (by decide)⟩

/-- C5: serialization is deterministic given the enumeration order of the
header map and produces exactly the version, one space, the status string,
a carriage return and line feed, each header entry as name, colon, space,
value and a line ending (in enumeration order), one blank line, and then
the raw body bytes with nothing appended after them. -/
theorem claim_C5 (r : HttpResponse) : write_response r = specWire r := by
  have hb : ∀ hsx : Headers,
      (hsx.map (fun kv => kv.1 ++ 58 :: 32 :: (kv.2 ++ [13, 10]))).flatten =
        specHeaderBlock hsx := by
    intro hsx
    induction hsx with
    | nil => rfl
    | cons kv rest ih =>
      obtain ⟨k, v⟩ := kv
      simp [specHeaderBlock, ih]
  simp [write_response, specWire, aB_sp_eq, aB_crlf_eq, aB_colsp_eq, hb]

theorem loop_none_no_lf (s : Bytes) (h : 10 ∉ s) :
    ∀ cur, read_http_request_loop cur s = none := by
  induction s with
  | nil => intro cur; rfl
  | cons b rest ih =>
    intro cur
    have hb : b ≠ 10 := fun e => h (e ▸ List.mem_cons_self b rest)
    have hr : 10 ∉ rest := fun m => h (List.mem_cons_of_mem _ m)
    simp [read_http_request_loop, hb, ih hr]

theorem parse_request_short (l0 : Bytes) (rest : List Bytes)
    (h : (splitSpace l0).length < 3) : parse_request (l0 :: rest) = none := by
  rcases hsp : splitSpace l0 with _ | ⟨m, _ | ⟨p, _ | ⟨vv, ts⟩⟩⟩
  · simp [parse_request, hsp]
  · simp only [parse_request, hsp]
    split <;> rfl
  · simp only [parse_request, hsp]
    split <;> rfl
  · rw [hsp] at h
    simp at h
    omega

theorem parse_request_bad_method (l0 m : Bytes) (rest : List Bytes) (ts : List Bytes)
    (hsp : splitSpace l0 = m :: ts)
    (h1 : m ≠ asciiBytes "GET") (h2 : m ≠ asciiBytes "POST") :
    parse_request (l0 :: rest) = none := by
  simp only [parse_request, hsp]
  simp [h1, h2]

/-- C6: whenever reading or parsing the request fails, the connection
writes nothing at all: in particular when the stream holds no line feed at
all (a line never terminated, the stream closing mid-line), when the start
line splits in fewer than three space-separated tokens (method, path or
version missing), and when the method token is neither GET nor POST. -/
theorem claim_C6 :
    (∀ (fs : Fs) (config : Config) (s : Bytes),
        read_request s = none → connectionOutput fs config s = [])
    ∧ (∀ (fs : Fs) (config : Config) (s : Bytes),
        10 ∉ s → connectionOutput fs config s = [])
    ∧ (∀ (fs : Fs) (config : Config) (s l0 : Bytes) (rest : List Bytes),
        read_http_request s = some (l0 :: rest) → (splitSpace l0).length < 3 →
        connectionOutput fs config s = [])
    ∧ (∀ (fs : Fs) (config : Config) (s l0 m : Bytes) (rest ts : List Bytes),
        read_http_request s = some (l0 :: rest) → splitSpace l0 = m :: ts →
        m ≠ asciiBytes "GET" → m ≠ asciiBytes "POST" →
        connectionOutput fs config s = []) := by
  have base : ∀ (fs : Fs) (config : Config) (s : Bytes),
      read_request s = none → connectionOutput fs config s = [] := by
    intro fs config s h
    simp [connectionOutput, h]
  refine ⟨base, ?_, ?_, ?_⟩
  · intro fs config s h
    apply base
    simp [read_request, read_http_request, read_http_request_rem, loop_none_no_lf s h]
  · intro fs config s l0 rest hr hle
    apply base
    simp [read_request, hr, parse_request_short l0 rest hle]
  · intro fs config s l0 m rest ts hr hsp h1 h2
    apply base
    simp [read_request, hr, parse_request_bad_method l0 m rest ts hsp h1 h2]

/-- Witness for C6 at three concrete bad streams: one with no line ending
at all, one whose start line has two tokens, one with an unknown method. -/
theorem claim_C6_witness :
    connectionOutput (fun _ => none) ⟨none⟩ (asciiBytes "GET") = [] ∧
    connectionOutput (fun _ => none) ⟨none⟩ (asciiBytes "GET /\r\n\r\n") = [] ∧
    connectionOutput (fun _ => none) ⟨none⟩ (asciiBytes "PUT / HTTP/1.1\r\n\r\n") = [] :=
  ⟨claim_C6.2.1 (fun _ => none) ⟨none⟩ (asciiBytes "GET") (by decide),
   claim_C6.2.2.1 (fun _ => none) ⟨none⟩ (asciiBytes "GET /\r\n\r\n") (asciiBytes "GET /") []
     (by decide) (by decide),
   claim_C6.2.2.2 (fun _ => none) ⟨none⟩ (asciiBytes "PUT / HTTP/1.1\r\n\r\n")
     (asciiBytes "PUT / HTTP/1.1") (asciiBytes "PUT") []
     [asciiBytes "/", asciiBytes "HTTP/1.1"] (by decide) (by decide) (by decide) (by decide)⟩

/-- C7: once the start line is valid, header parsing cannot fail: parsing
returns a request whose header map is exactly the collection of the later
lines, where a line splitting at the first colon-space contributes its name
and value, lines without the separator are dropped silently, and on equal
names the later line wins, as stated by the last-contribution lookup
equation. -/
theorem claim_C7 :
    (∀ (l0 : Bytes) (rest : List Bytes) (m p vv : Bytes) (ts : List Bytes),
        splitSpace l0 = m :: p :: vv :: ts →
        (m = asciiBytes "GET" ∨ m = asciiBytes "POST") →
        ∃ mm : HttpMethod,
          parse_request (l0 :: rest) =
            some { method := mm, path := p, version := vv, headers := collectHeaders rest })
    ∧ (∀ (k : Bytes) (lines : List Bytes),
        hlookup k (collectHeaders lines) = specLastWins k lines) := by
  constructor
  · intro l0 rest m p vv ts hsp hm
    rcases hm with hm | hm
    · exact ⟨HttpMethod.get, by subst hm; simp +decide [parse_request, hsp]⟩
    · exact ⟨HttpMethod.post, by subst hm; simp +decide [parse_request, hsp]⟩
  · exact hlookup_collectHeaders

/-- Witness for C7: a request with a separator-free junk line and a
duplicated header name, where the second value wins. -/
theorem claim_C7_witness :
    (∃ mm : HttpMethod,
        parse_request [asciiBytes "GET / HTTP/1.1", asciiBytes "nonsense",
          asciiBytes "A: 1", asciiBytes "A: 2"] =
          some { method := mm, path := asciiBytes "/", version := asciiBytes "HTTP/1.1",
                 headers := collectHeaders [asciiBytes "nonsense", asciiBytes "A: 1",
                   asciiBytes "A: 2"] }) ∧
    hlookup (asciiBytes "A") (collectHeaders [asciiBytes "nonsense", asciiBytes "A: 1",
      asciiBytes "A: 2"]) = some (asciiBytes "2") :=
  ⟨claim_C7.1 (asciiBytes "GET / HTTP/1.1")
      [asciiBytes "nonsense", asciiBytes "A: 1", asciiBytes "A: 2"]
      (asciiBytes "GET") (asciiBytes "/") (asciiBytes "HTTP/1.1") []
      (by decide) (Or.inl rfl),
   by decide⟩

/-- C9: the 400 branches guarding the route marker strip are unreachable:
for a GET request on an echo or files path the strip always succeeds, so a
GET on an echo path always answers 200 and a GET on a files path answers
only 200, 404 or 500. -/
theorem claim_C9 :
    (∀ (fs : Fs) (config : Config) (req : HttpRequest) (suffix : Bytes),
        req.method = HttpMethod.get → req.path = asciiBytes "/echo/" ++ suffix →
        stripPre (asciiBytes "/echo/") req.path = some suffix ∧
        (handle fs req config).code = CODE_200_OK)
    ∧ (∀ (fs : Fs) (config : Config) (req : HttpRequest) (name : Bytes),
        req.method = HttpMethod.get → req.path = asciiBytes "/files/" ++ name →
        stripPre (asciiBytes "/files/") req.path = some name ∧
        ((handle fs req config).code = CODE_200_OK ∨
         (handle fs req config).code = CODE_404_NOT_FOUND ∨
         (handle fs req config).code = CODE_500_INTERNAL_SERVER_ERROR)) := by
  constructor
  · intro fs config req suffix hm hp
    refine ⟨by rw [hp]; exact stripPre_append _ _, ?_⟩
    rw [dispatch_echo fs config req suffix hm hp, handle_echo_ok req suffix hp]
  · intro fs config req name hm hp
    refine ⟨by rw [hp]; exact stripPre_append _ _, ?_⟩
    rw [dispatch_files fs config req name hm hp]
    rcases hd : config.directory with _ | dir
    · rw [handle_files_nodir fs req config hd]
      right; right; rfl
    · rcases hf : fs (dir ++ asciiBytes "/" ++ name) with _ | c
      · rw [handle_files_err fs req config dir name hd hp hf]
        right; left; rfl
      · rw [handle_files_ok fs req config dir name c hd hp hf]
        left; rfl

/-- Witness for C9 at concrete echo and files paths. -/
theorem claim_C9_witness :
    stripPre (asciiBytes "/echo/") (asciiBytes "/echo/" ++ asciiBytes "hi") =
        some (asciiBytes "hi") ∧
    (handle (fun _ => none)
        ⟨HttpMethod.get, asciiBytes "/echo/" ++ asciiBytes "hi",
         asciiBytes "HTTP/1.1", []⟩ ⟨none⟩).code = CODE_200_OK ∧
    stripPre (asciiBytes "/files/") (asciiBytes "/files/" ++ asciiBytes "x") =
        some (asciiBytes "x") ∧
    ((handle (fun _ => none)
        ⟨HttpMethod.get, asciiBytes "/files/" ++ asciiBytes "x",
         asciiBytes "HTTP/1.1", []⟩ ⟨none⟩).code = CODE_200_OK ∨
     (handle (fun _ => none)
        ⟨HttpMethod.get, asciiBytes "/files/" ++ asciiBytes "x",
         asciiBytes "HTTP/1.1", []⟩ ⟨none⟩).code = CODE_404_NOT_FOUND ∨
     (handle (fun _ => none)
        ⟨HttpMethod.get, asciiBytes "/files/" ++ asciiBytes "x",
         asciiBytes "HTTP/1.1", []⟩ ⟨none⟩).code = CODE_500_INTERNAL_SERVER_ERROR) := by
  have h1 := claim_C9.1 (fun _ => none)
    ⟨none⟩ ⟨HttpMethod.get, asciiBytes "/echo/" ++ asciiBytes "hi", asciiBytes "HTTP/1.1", []⟩
    (asciiBytes "hi") rfl rfl
  have h2 := claim_C9.2 (fun _ => none)
    ⟨none⟩ ⟨HttpMethod.get, asciiBytes "/files/" ++ asciiBytes "x", asciiBytes "HTTP/1.1", []⟩
    (asciiBytes "x") rfl rfl
  exact ⟨h1.1, h1.2, h2.1, h2.2⟩

/-- C10: every handled request gets exactly one response; its version is
copied from the request, its status string is one of the four constants
200 OK, 400 Bad Request, 404 Not Found, 500 Internal Server Error, every
response whose status is not 200 carries an empty header map (no
Content-Length at all) and an empty body, and so does the 200 response for
the bare slash path. -/
theorem claim_C10 (fs : Fs) (config : Config) (req : HttpRequest) :
    (handle fs req config).version = req.version ∧
    ((handle fs req config).code = CODE_200_OK ∨
     (handle fs req config).code = CODE_400_BAD_REQUEST ∨
     (handle fs req config).code = CODE_404_NOT_FOUND ∨
     (handle fs req config).code = CODE_500_INTERNAL_SERVER_ERROR) ∧
    ((handle fs req config).code ≠ CODE_200_OK →
      (handle fs req config).headers = [] ∧ (handle fs req config).content = []) ∧
    (req.method = HttpMethod.get → req.path = asciiBytes "/" →
      (handle fs req config).headers = [] ∧ (handle fs req config).content = []) := by
  obtain ⟨m, p, v, hs⟩ := req
  cases m with
  | post =>
    rw [dispatch_post fs config _ rfl]
    exact ⟨rfl, Or.inr (Or.inr (Or.inl rfl)), fun _ => ⟨rfl, rfl⟩,
      fun hg => HttpMethod.noConfusion hg⟩
  | get =>
    by_cases h1 : p = asciiBytes "/"
    · rw [dispatch_root fs config _ rfl h1]
      exact ⟨rfl, Or.inl rfl, fun h => absurd rfl h, fun _ _ => ⟨rfl, rfl⟩⟩
    · by_cases h2 : p = asciiBytes "/user-agent"
      · rw [dispatch_ua fs config _ rfl h2]
        rcases hua : hlookup (asciiBytes "User-Agent") hs with _ | ua
        · rw [handle_user_agent_none _ hua]
          exact ⟨rfl, Or.inr (Or.inl rfl), fun _ => ⟨rfl, rfl⟩, fun _ hp => absurd hp h1⟩
        · rw [handle_user_agent_some _ ua hua]
          exact ⟨rfl, Or.inl rfl, fun h => absurd rfl h, fun _ hp => absurd hp h1⟩
      · by_cases h3 : (asciiBytes "/echo/").isPrefixOf p
        · obtain ⟨suffix, hsuf⟩ : ∃ suffix, p = asciiBytes "/echo/" ++ suffix := by
            obtain ⟨t, ht⟩ := List.isPrefixOf_iff_prefix.mp h3
            exact ⟨t, ht.symm⟩
          rw [dispatch_echo fs config _ suffix rfl hsuf, handle_echo_ok _ suffix hsuf]
          exact ⟨rfl, Or.inl rfl, fun h => absurd rfl h, fun _ hp => absurd hp h1⟩
        · by_cases h4 : (asciiBytes "/files/").isPrefixOf p
          · obtain ⟨name, hname⟩ : ∃ nm, p = asciiBytes "/files/" ++ nm := by
              obtain ⟨t, ht⟩ := List.isPrefixOf_iff_prefix.mp h4
              exact ⟨t, ht.symm⟩
            rw [dispatch_files fs config _ name rfl hname]
            rcases hd : config.directory with _ | dir
            · rw [handle_files_nodir fs _ config hd]
              exact ⟨rfl, Or.inr (Or.inr (Or.inr rfl)), fun _ => ⟨rfl, rfl⟩,
                fun _ hp => absurd hp h1⟩
            · rcases hf : fs (dir ++ asciiBytes "/" ++ name) with _ | c
              · rw [handle_files_err fs _ config dir name hd hname hf]
                exact ⟨rfl, Or.inr (Or.inr (Or.inl rfl)), fun _ => ⟨rfl, rfl⟩,
                  fun _ hp => absurd hp h1⟩
              · rw [handle_files_ok fs _ config dir name c hd hname hf]
                exact ⟨rfl, Or.inl rfl, fun h => absurd rfl h, fun _ hp => absurd hp h1⟩
          · rw [dispatch_fallback fs config _ rfl h1 h2 h3 h4]
            exact ⟨rfl, Or.inr (Or.inr (Or.inl rfl)), fun _ => ⟨rfl, rfl⟩,
              fun _ hp => absurd hp h1⟩

/-- Witness for C10 at the bare slash GET and at a POST. -/
theorem claim_C10_witness :
    (handle (fun _ => none) ⟨HttpMethod.get, asciiBytes "/", asciiBytes "HTTP/1.1", []⟩
        ⟨none⟩).headers = [] ∧
    (handle (fun _ => none) ⟨HttpMethod.get, asciiBytes "/", asciiBytes "HTTP/1.1", []⟩
        ⟨none⟩).content = [] ∧
    (handle (fun _ => none) ⟨HttpMethod.post, asciiBytes "/x", asciiBytes "HTTP/1.1", []⟩
        ⟨none⟩).headers = [] :=
  ⟨((claim_C10 (fun _ => none) ⟨none⟩
      ⟨HttpMethod.get, asciiBytes "/", asciiBytes "HTTP/1.1", []⟩).2.2.2 rfl rfl).1,
   ((claim_C10 (fun _ => none) ⟨none⟩
      ⟨HttpMethod.get, asciiBytes "/", asciiBytes "HTTP/1.1", []⟩).2.2.2 rfl rfl).2,
   ((claim_C10 (fun _ => none) ⟨none⟩
      ⟨HttpMethod.post, asciiBytes "/x", asciiBytes "HTTP/1.1", []⟩).2.2.1 (by decide)).1⟩

theorem loop_skip (l : Bytes) (h : 10 ∉ l) :
    ∀ (cur s : Bytes), read_http_request_loop cur (l ++ s) = read_http_request_loop (cur ++ l) s := by
  induction l with
  | nil => intro cur s; simp
  | cons b rest ih =>
    intro cur s
    have hb : b ≠ 10 := fun e => h (e ▸ List.mem_cons_self b rest)
    have hr : 10 ∉ rest := fun m => h (List.mem_cons_of_mem _ m)
    rw [List.cons_append, read_http_request_loop]
    simp only [hb, if_neg, ite_false]
    rw [ih hr (cur ++ [b]) s]
    simp

theorem stripCrlf_crlf (c : Bytes) : stripCrlf (c ++ [13, 10]) = some c := by
  simp [stripCrlf, List.reverse_append]

theorem read_lines_step (content rest : Bytes) (hn : 10 ∉ content) (hne : content ≠ []) :
    read_http_request_rem (content ++ [13, 10] ++ rest) =
      match read_http_request_rem rest with
      | none => none
      | some p => some (content :: p.1, p.2) := by
  unfold read_http_request_rem
  have hsh : content ++ [13, 10] ++ rest = (content ++ [13]) ++ (10 :: rest) := by simp
  have hn13 : 10 ∉ content ++ [13] := by
    intro hmem
    rcases List.mem_append.mp hmem with hmem | hmem
    · exact hn hmem
    · simp at hmem
  rw [hsh, loop_skip _ hn13, List.nil_append, read_http_request_loop]
  simp [stripCrlf_crlf, hne]

theorem read_lines_flat (ls : List Bytes) (body : Bytes)
    (h : ∀ l ∈ ls, 10 ∉ l ∧ l ≠ []) :
    read_http_request_rem ((ls.map (fun l => l ++ [13, 10])).flatten ++ ([13, 10] ++ body)) =
      some (ls, body) := by
  induction ls with
  | nil =>
    simp only [List.map_nil, List.flatten_nil, List.nil_append]
    simp [read_http_request_rem, read_http_request_loop, stripCrlf]
  | cons l ls ih =>
    have hl := h l (List.mem_cons_self l ls)
    have hrest : ∀ x ∈ ls, 10 ∉ x ∧ x ≠ [] := fun x hx => h x (List.mem_cons_of_mem _ hx)
    have hsh : ((l :: ls).map (fun x => x ++ [13, 10])).flatten ++ ([13, 10] ++ body) =
        l ++ [13, 10] ++ ((ls.map (fun x => x ++ [13, 10])).flatten ++ ([13, 10] ++ body)) := by
      simp
    rw [hsh, read_lines_step l _ hl.1 hl.2, ih hrest]

theorem splitOnce_colsp (k v : Bytes) (hk : ¬ (asciiBytes ": ") <:+: k) :
    splitOnce (asciiBytes ": ") (k ++ asciiBytes ": " ++ v) = some (k, v) := by
  induction k with
  | nil =>
    rw [List.nil_append, aB_colsp_eq]
    simp only [List.cons_append, List.nil_append]
    simp [splitOnce, List.isPrefixOf]
  | cons b k ih =>
    have hk2 : ¬ (asciiBytes ": ") <:+: k := fun h => hk (List.infix_cons h)
    have hprop : ¬ ((asciiBytes ": ") <+: (b :: (k ++ (asciiBytes ": " ++ v)))) := by
      intro hpp
      simp only [aB_colsp_eq, List.cons_append, List.append_assoc] at hpp
      rcases List.cons_prefix_cons.mp hpp with ⟨hb, htail⟩
      subst hb
      cases k with
      | nil =>
        simp only [List.nil_append, List.cons_append] at htail
        rcases List.cons_prefix_cons.mp htail with ⟨habs2, _⟩
        exact absurd habs2 (by decide)
      | cons c k2 =>
        simp only [List.cons_append] at htail
        rcases List.cons_prefix_cons.mp htail with ⟨hc, _⟩
        subst hc
        apply hk
        rw [aB_colsp_eq]
        exact ⟨[], k2, by simp⟩
    have hbool : (asciiBytes ": ").isPrefixOf (b :: (k ++ (asciiBytes ": " ++ v))) = false := by
      rw [← Bool.not_eq_true, List.isPrefixOf_iff_prefix]
      exact hprop
    simp only [List.cons_append, List.append_assoc]
    simp only [splitOnce, hbool, Bool.false_eq_true, if_false]
    rw [List.append_assoc] at ih
    rw [ih hk2]

theorem filterMap_kvlines (hs : Headers)
    (hh : ∀ kv ∈ hs, ¬ (asciiBytes ": ") <:+: kv.1) :
    (hs.map (fun kv => kv.1 ++ asciiBytes ": " ++ kv.2)).filterMap
        (splitOnce (asciiBytes ": ")) = hs := by
  induction hs with
  | nil => rfl
  | cons kv rest ih =>
    obtain ⟨k, v⟩ := kv
    have hline := splitOnce_colsp k v (hh (k, v) (List.mem_cons_self _ _))
    have hrest : ∀ kv ∈ rest, ¬ (asciiBytes ": ") <:+: kv.1 :=
      fun kv hm => hh kv (List.mem_cons_of_mem _ hm)
    simp only [List.map_cons, List.filterMap_cons, hline, ih hrest]

theorem find_reverse_eq_hlookup (k : Bytes) (hs : Headers)
    (hnd : (hs.map Prod.fst).Nodup) :
    (hs.reverse.find? (fun kv => kv.1 == k)).map Prod.snd = hlookup k hs := by
  induction hs with
  | nil => rfl
  | cons p rest ih =>
    obtain ⟨k0, v0⟩ := p
    simp only [List.map_cons, List.nodup_cons] at hnd
    obtain ⟨hk0, hndr⟩ := hnd
    simp only [List.reverse_cons, List.find?_append]
    by_cases hk : k0 = k
    · subst hk
      have hnone : rest.reverse.find? (fun kv => kv.1 == k0) = none := by
        rw [List.find?_eq_none]
        intro x hx
        simp only [beq_iff_eq]
        intro habs
        exact hk0 (List.mem_map.mpr ⟨x, List.mem_reverse.mp hx, habs⟩)
      simp [hnone, hlookup, List.find?]
    · have hb0 : ((k0 : Bytes) == k) = false := by simp [hk]
      have hone : ([((k0 : Bytes), v0)].find? (fun kv => kv.1 == k)) = none := by
        simp [List.find?, hb0]
      rw [hone]
      cases hf : rest.reverse.find? (fun kv => kv.1 == k) with
      | none => simp [hlookup, hk, ← ih hndr, hf]
      | some q => simp [hlookup, hk, ← ih hndr, hf, Option.or]

/-- C8, counterexample to the claim as stated: the round trip is not valid
for every response.  A response whose single header A holds a value with an
embedded carriage return, line feed serializes to a wire image whose line
tokenizer reading splits that one entry into two header lines, so the
re-collected header set disagrees with the response header map on the name
A (value truncated at the embedded line break) and on the name C (absent
in the response, present after re-parsing); the body bytes still follow the
blank line. -/
theorem claim_C8_cex :
    read_http_request_rem (write_response
        { version := asciiBytes "HTTP/1.1", code := CODE_200_OK,
          headers := [(asciiBytes "A", asciiBytes "b\r\nC: d")], content := [66] }) =
      some ([asciiBytes "HTTP/1.1 200 OK", asciiBytes "A: b", asciiBytes "C: d"], [66]) ∧
    hlookup (asciiBytes "A")
        (collectHeaders [asciiBytes "A: b", asciiBytes "C: d"]) = some (asciiBytes "b") ∧
    hlookup (asciiBytes "C")
        (collectHeaders [asciiBytes "A: b", asciiBytes "C: d"]) = some (asciiBytes "d") ∧
    hlookup (asciiBytes "A")
        [(asciiBytes "A", asciiBytes "b\r\nC: d")] = some (asciiBytes "b\r\nC: d") ∧
    hlookup (asciiBytes "C")
        [(asciiBytes "A", asciiBytes "b\r\nC: d")] = none ∧
    asciiBytes "b" ≠ asciiBytes "b\r\nC: d" := by decide

/-- C8, amended: round trip between the serializer and the line reader for
every response whose version, status and header entries are line-clean (no
line feed byte in the version, the status or a header name or value, no
colon-space inside a name) and whose header names are distinct, which is
the shape of every response the handlers build: re-reading the serialized
bytes with the line tokenizer gives back the start line and one line per
header entry, leaves exactly the body bytes unconsumed after the blank
line, and re-collecting the header lines gives a map equal, order aside,
to the response header map. -/
theorem claim_C8 (r : HttpResponse)
    (hv : 10 ∉ r.version) (hc : 10 ∉ r.code)
    (hh : ∀ kv ∈ r.headers, entryRoundTrips kv)
    (hnd : (r.headers.map Prod.fst).Nodup) :
    read_http_request_rem (write_response r) =
      some ((r.version ++ [32] ++ r.code) ::
              r.headers.map (fun kv => kv.1 ++ asciiBytes ": " ++ kv.2), r.content) ∧
    ∀ k, hlookup k
        (collectHeaders (r.headers.map (fun kv => kv.1 ++ asciiBytes ": " ++ kv.2))) =
      hlookup k r.headers := by
  constructor
  · have hshape : write_response r =
        (((r.version ++ [32] ++ r.code) ::
            r.headers.map (fun kv => kv.1 ++ asciiBytes ": " ++ kv.2)).map
              (fun l => l ++ [13, 10])).flatten ++ ([13, 10] ++ r.content) := by
      simp [write_response, aB_sp_eq, aB_crlf_eq, aB_colsp_eq, List.map_map, Function.comp_def]
    have hls : ∀ l ∈ (r.version ++ [32] ++ r.code) ::
        r.headers.map (fun kv => kv.1 ++ asciiBytes ": " ++ kv.2), 10 ∉ l ∧ l ≠ [] := by
      intro l hl
      rcases List.mem_cons.mp hl with hl | hl
      · subst hl
        constructor
        · intro hmem
          rcases List.mem_append.mp hmem with hmem | hmem
          · rcases List.mem_append.mp hmem with hmem | hmem
            · exact hv hmem
            · simp at hmem
          · exact hc hmem
        · simp
      · obtain ⟨kv, hkv, hline⟩ := List.mem_map.mp hl
        obtain ⟨h10k, h10v, _⟩ := hh kv hkv
        subst hline
        constructor
        · intro hmem
          rw [aB_colsp_eq] at hmem
          rcases List.mem_append.mp hmem with hmem | hmem
          · rcases List.mem_append.mp hmem with hmem | hmem
            · exact h10k hmem
            · simp at hmem
          · exact h10v hmem
        · simp +decide
    rw [hshape]
    exact read_lines_flat _ _ hls
  · intro k
    have hfm := filterMap_kvlines r.headers (fun kv hm => (hh kv hm).2.2)
    rw [hlookup_collectHeaders, specLastWins, hfm, find_reverse_eq_hlookup k _ hnd]

/-- Witness for C8 on a concrete 200 response with one header. -/
theorem claim_C8_witness :
    read_http_request_rem (write_response
        ⟨asciiBytes "HTTP/1.1", CODE_200_OK, [(asciiBytes "A", asciiBytes "b")], [66, 79]⟩) =
      some ((asciiBytes "HTTP/1.1" ++ [32] ++ CODE_200_OK) ::
              [(asciiBytes "A", asciiBytes "b")].map
                (fun kv => kv.1 ++ asciiBytes ": " ++ kv.2), [66, 79]) ∧
    hlookup (asciiBytes "A")
        (collectHeaders ([(asciiBytes "A", asciiBytes "b")].map
          (fun kv => kv.1 ++ asciiBytes ": " ++ kv.2))) =
      hlookup (asciiBytes "A") [(asciiBytes "A", asciiBytes "b")] := by
  have h := claim_C8
    ⟨asciiBytes "HTTP/1.1", CODE_200_OK, [(asciiBytes "A", asciiBytes "b")], [66, 79]⟩
    (by decide) (by decide)
    (by
      intro kv hm
      rcases List.mem_singleton.mp hm with rfl
      exact ⟨by decide, by decide, by decide⟩)
    (by decide)
  exact ⟨h.1, h.2 (asciiBytes "A")⟩
